import Mathlib

/-!
# mapbox-gl-native: request worker, shape annotation tiler glue, raster painter

A shallow embedding of

* `platform/node/src/node_request.cpp` (`NodeRequestWorker`),
* `src/mbgl/annotation/shape_annotation_impl.cpp` (`ShapeAnnotationImpl::updateTileData`),
* `src/mbgl/renderer/painter_raster.cpp` (`Painter::saturationFactor`,
  `Painter::contrastFactor`, `Painter::spinWeights`),

followed by the properties established about them.
-/

set_option linter.unusedVariables false

namespace mbgl

/-! ## Painter: raster paint property remapping (painter_raster.cpp) -/

namespace Painter

/-- `Painter::saturationFactor` (painter_raster.cpp:46-52), over an ordered field
(exact arithmetic in place of `float`). -/
def saturationFactor {α : Type} [LinearOrderedField α] (saturation : α) : α :=
  if saturation > 0 then
    1 - 1 / (1.001 - saturation)
  else
    -saturation

/-- `Painter::contrastFactor` (painter_raster.cpp:54-60), over an ordered field. -/
def contrastFactor {α : Type} [LinearOrderedField α] (contrast : α) : α :=
  if contrast > 0 then
    1 / (1 - contrast)
  else
    1 + contrast

/-- `Painter::spinWeights` (painter_raster.cpp:62-72).  The libm functions `std::sin`,
`std::cos`, the value `std::sqrt(3.0f)` and the constant `util::DEG2RAD` (declared in
`mbgl/util/constants.hpp`) are parameters; the `std::array<float, 3>` is a list. -/
def spinWeights {α : Type} [Field α] (sin cos : α → α) (sqrt3 DEG2RAD : α) (spin : α) : List α :=
  let spin := spin * DEG2RAD
  let s := sin spin
  let c := cos spin
  [(2 * c + 1) / 3,
   (-sqrt3 * s - c + 1) / 3,
   (sqrt3 * s - c + 1) / 3]

end Painter

/-! ## Geometry (include/mbgl/util/geometry.hpp) -/

/-- `mbgl::FeatureType` (geometry.hpp:8-13). -/
inductive FeatureType where
  | Unknown
  | Point
  | LineString
  | Polygon
  deriving DecidableEq, Repr

/-- `mapbox::geometry::point<T>`: a pair of coordinates. -/
structure Point (T : Type) where
  x : T
  y : T
  deriving DecidableEq, Repr

/-- `mapbox::geometry::geometry<T>`: the variant over the alternatives that
`ToFeatureType` visits (geometry.hpp:15-23).  `line_string`, `multi_point` and the rings of a
`polygon` are vectors of points. -/
inductive Geometry (T : Type) where
  | point (p : Point T)
  | multi_point (ps : List (Point T))
  | line_string (ps : List (Point T))
  | multi_line_string (ls : List (List (Point T)))
  | polygon (rings : List (List (Point T)))
  | multi_polygon (ps : List (List (List (Point T))))
  | geometry_collection (gs : List (Geometry T))

/-- `ToFeatureType` (geometry.hpp:15-23): the visitor that classifies a geometry by the
alternative the variant holds. -/
def ToFeatureType {T : Type} : Geometry T → FeatureType
  | .point _ => FeatureType.Point
  | .multi_point _ => FeatureType.Point
  | .line_string _ => FeatureType.LineString
  | .multi_line_string _ => FeatureType.LineString
  | .polygon _ => FeatureType.Polygon
  | .multi_polygon _ => FeatureType.Polygon
  | .geometry_collection _ => FeatureType.Unknown

/-- The `std::type_info` objects that `updateTileData` compares: the static type of the
expression `shapeFeature.geometry` and the two types named in the `typeid(...)` operands. -/
inductive TypeInfo where
  | geometry
  | line_string
  | polygon
  deriving DecidableEq, Repr

/-- `typeid(shapeFeature.geometry)`.  The operand is an lvalue of class type
`mapbox::geometry::geometry<int16_t>`, a `mapbox::util::variant` without any virtual member
function; for an operand that is not a glvalue of polymorphic class type `typeid` refers to
the static type of the expression ([expr.typeid]), so the result does not depend on the
alternative stored in the variant.  (That the operand is the variant itself, not one of its
alternatives, shows in the calls `shapeFeature.geometry.get<...>()` on the same expression.) -/
def Geometry.typeid {T : Type} (_g : Geometry T) : TypeInfo :=
  TypeInfo.geometry

/-- `geometry.get<line_string<T>>()`: the stored line string, `none` when the variant holds
another alternative (`bad_variant_access`). -/
def Geometry.get_line_string {T : Type} : Geometry T → Option (List (Point T))
  | .line_string ps => some ps
  | _ => none

/-- `geometry.get<polygon<T>>()`: the stored rings, `none` when the variant holds another
alternative (`bad_variant_access`). -/
def Geometry.get_polygon {T : Type} : Geometry T → Option (List (List (Point T)))
  | .polygon rings => some rings
  | _ => none

/-- `GeometryCoordinates`: a vector of `Point<int16_t>`. -/
abbrev GeometryCoordinates := List (Point Int)

/-- `GeometryCollection`: a vector of `GeometryCoordinates` (rings). -/
abbrev GeometryCollection := List GeometryCoordinates

/-! ## Shape annotations (src/mbgl/annotation/shape_annotation_impl.cpp) -/

/-- Modelled from the spec: `CanonicalTileID` (declared in `mbgl/tile/tile_id.hpp`): a zoom
level and the tile column and row within that zoom's grid. -/
structure CanonicalTileID where
  z : Nat
  x : Nat
  y : Nat
  deriving DecidableEq, Repr

/-- Modelled from the spec: `AnnotationTileFeature(type, geometries)` (declared in
`mbgl/annotation/annotation_tile.hpp`): a classified geometry given as rings of integer
coordinates. -/
structure AnnotationTileFeature where
  type : FeatureType
  geometries : GeometryCollection
  deriving DecidableEq, Repr

/-- Modelled from the spec: `AnnotationTileLayer(name)` (declared in
`mbgl/annotation/annotation_tile.hpp`): a named, ordered sequence of features. -/
structure AnnotationTileLayer where
  name : String
  features : List AnnotationTileFeature
  deriving DecidableEq, Repr

/-- Modelled from the spec: `AnnotationTileData` (declared in
`mbgl/annotation/annotation_tile.hpp`): the map `layers` from layer name to layer, as an
association list with at most one entry per key. -/
structure AnnotationTileData where
  layers : List (String × AnnotationTileLayer)
  deriving DecidableEq, Repr

/-- `layers.emplace(key, layer).first->second`: inserts only when no entry has the key;
the result is the map after the call and the layer that the returned iterator refers to
(the one already stored under the key, otherwise the new one). -/
def AnnotationTileData.emplace (data : AnnotationTileData) (key : String)
    (layer : AnnotationTileLayer) : AnnotationTileData × AnnotationTileLayer :=
  match data.layers.find? (fun e => e.1 == key) with
  | some e => (data, e.2)
  | none => ({ layers := data.layers ++ [(key, layer)] }, layer)

/-- Writes through the reference obtained from `emplace(key, ...).first->second`. -/
def AnnotationTileData.assign (data : AnnotationTileData) (key : String)
    (layer : AnnotationTileLayer) : AnnotationTileData :=
  { layers := data.layers.map (fun e => if e.1 == key then (e.1, layer) else e) }

/-- `mapbox::geojsonvt::Options`, the fields that `updateTileData` assigns. -/
structure Options where
  maxZoom : Nat
  buffer : Nat
  extent : Nat
  tolerance : ℚ
  deriving DecidableEq, Repr

/-- `mapbox::geometry::feature<T>`: its geometry. -/
structure Feature (T : Type) where
  geometry : Geometry T

/-- `mapbox::geojsonvt::GeoJSONVT(features, options)`: the index is kept as the arguments
it was constructed from. -/
structure GeoJSONVT where
  features : List (Feature ℚ)
  options : Options

/-- `mapbox::geojsonvt::Tile`: the feature collection of one tile, in `int16_t` tile-local
coordinates. -/
structure Tile where
  features : List (Feature Int)

/-- `ShapeAnnotationImpl`: the members read and written by `updateTileData`. -/
structure ShapeAnnotationImpl where
  id : Nat
  maxZoom : Nat
  layerID : String
  shapeTiler : Option GeoJSONVT

/-- `ShapeAnnotationImpl::ShapeAnnotationImpl(id, maxZoom)` (shape_annotation_impl.cpp:14-18). -/
def ShapeAnnotationImpl.new (id maxZoom : Nat) : ShapeAnnotationImpl :=
  { id := id
    maxZoom := maxZoom
    layerID := "com.mapbox.annotations.shape." ++ toString id
    shapeTiler := none }

/-- How a call of `updateTileData` can end other than by returning. -/
inductive Abort where
  | assertion_failed
  | bad_variant_access
  deriving DecidableEq, Repr

/-- Lines 21-34 of `updateTileData`: the tiler in use after the `if (!shapeTiler)` block.
`EXTENT` is `util::EXTENT` (declared in `mbgl/util/constants.hpp`).  `1ull << maxZoom` is
taken modulo `2^64` (the shift is undefined for `maxZoom ≥ 64`); the quotient `tolerance`
is computed and not used afterwards, as in the source. -/
def ShapeAnnotationImpl.ensureTiler (EXTENT : Nat) (self : ShapeAnnotationImpl) : GeoJSONVT :=
  let baseTolerance : ℚ := 4
  match self.shapeTiler with
  | some tiler => tiler
  | none =>
    let maxAmountOfTileFeatures : Nat := ((1 <<< self.maxZoom) % 2 ^ 64 * EXTENT) % 2 ^ 64
    let tolerance : ℚ := baseTolerance / maxAmountOfTileFeatures
    let features : List (Feature ℚ) := []
    let options : Options :=
      { maxZoom := self.maxZoom
        buffer := 255
        extent := EXTENT
        tolerance := baseTolerance }
    { features := features, options := options }

/-- Lines 44-74 of `updateTileData`: the body of the loop over `shapeTile.features`, for one
`shapeFeature`, appending to `layer`.  `NDEBUG` tells whether `assert` is compiled out;
`fixupPolygons` (declared in `mbgl/tile/geometry_tile_data.hpp`) is a parameter. -/
def ShapeAnnotationImpl.updateTileData.body (NDEBUG : Bool)
    (fixupPolygons : GeometryCollection → GeometryCollection)
    (layer : AnnotationTileLayer) (shapeFeature : Feature Int) :
    Except Abort AnnotationTileLayer :=
  let classified : Except Abort (FeatureType × GeometryCollection) :=
    if shapeFeature.geometry.typeid = TypeInfo.line_string then
      match shapeFeature.geometry.get_line_string with
      | none => Except.error Abort.bad_variant_access
      | some line =>
        let renderLine : GeometryCoordinates := line.map (fun shapePoint => ⟨shapePoint.x, shapePoint.y⟩)
        Except.ok (FeatureType.LineString, [renderLine])
    else if shapeFeature.geometry.typeid = TypeInfo.polygon then
      match shapeFeature.geometry.get_polygon with
      | none => Except.error Abort.bad_variant_access
      | some rings =>
        Except.ok (FeatureType.Polygon,
          rings.map (fun shapeRing => shapeRing.map (fun shapePoint => ⟨shapePoint.x, shapePoint.y⟩)))
    else
      Except.ok (FeatureType.Unknown, [])
  match classified with
  | Except.error e => Except.error e
  | Except.ok (featureType, renderGeometry) =>
    if featureType = FeatureType.Unknown ∧ NDEBUG = false then
      Except.error Abort.assertion_failed
    else
      let renderGeometry :=
        if featureType = FeatureType.Polygon then fixupPolygons renderGeometry else renderGeometry
      Except.ok { layer with features := layer.features ++ [⟨featureType, renderGeometry⟩] }

/-- The `for (auto& shapeFeature : shapeTile.features)` loop (lines 43-75). -/
def ShapeAnnotationImpl.updateTileData.loop (NDEBUG : Bool)
    (fixupPolygons : GeometryCollection → GeometryCollection) :
    AnnotationTileLayer → List (Feature Int) → Except Abort AnnotationTileLayer
  | layer, [] => Except.ok layer
  | layer, shapeFeature :: rest =>
    match ShapeAnnotationImpl.updateTileData.body NDEBUG fixupPolygons layer shapeFeature with
    | Except.error e => Except.error e
    | Except.ok layer => ShapeAnnotationImpl.updateTileData.loop NDEBUG fixupPolygons layer rest

/-- `ShapeAnnotationImpl::updateTileData` (shape_annotation_impl.cpp:20-76).  The result is
the annotation (with its tiler) and the tile data after the call, or the way the call
aborted.  `getTile` is `GeoJSONVT::getTile` of the geojson-vt library. -/
def ShapeAnnotationImpl.updateTileData (NDEBUG : Bool) (EXTENT : Nat)
    (fixupPolygons : GeometryCollection → GeometryCollection)
    (getTile : GeoJSONVT → Nat → Nat → Nat → Tile)
    (self : ShapeAnnotationImpl) (tileID : CanonicalTileID) (data : AnnotationTileData) :
    Except Abort (ShapeAnnotationImpl × AnnotationTileData) :=
  let tiler := self.ensureTiler EXTENT
  let self := { self with shapeTiler := some tiler }
  let shapeTile := getTile tiler tileID.z tileID.x tileID.y
  if shapeTile.features.length = 0 then
    Except.ok (self, data)
  else
    let (data, layer) := data.emplace self.layerID { name := self.layerID, features := [] }
    match ShapeAnnotationImpl.updateTileData.loop NDEBUG fixupPolygons layer shapeTile.features with
    | Except.error e => Except.error e
    | Except.ok layer => Except.ok (self, data.assign self.layerID layer)

end mbgl

namespace node_mbgl

/-! ## Doubles, as `HandleCallback` uses them -/

/-- An IEEE-754 binary64 value: not-a-number, an infinity, or a finite value
`mantissa * 2^exponent` (every finite double has this form; the two zeros are both
`fin 0 0`, and nothing below depends on the sign of a zero). -/
inductive Double where
  | nan
  | inf (negative : Bool)
  | fin (mantissa : ℤ) (exponent : ℤ)
  deriving DecidableEq, Repr

/-- `std::isnan`. -/
def Double.isnan : Double → Bool
  | Double.nan => true
  | _ => false

/-- Number of binary digits of `n`, by halving at most `fuel` times. -/
def bitLength.go : Nat → Nat → Nat
  | 0, _ => 0
  | fuel + 1, n => if n = 0 then 0 else bitLength.go fuel (n / 2) + 1

/-- Number of binary digits of `n`: `2^(bitLength n - 1) ≤ n < 2^(bitLength n)` for `n > 0`. -/
def bitLength (n : Nat) : Nat :=
  bitLength.go n n

/-- The integer nearest to `num / den`, ties to the even one (`den > 0`). -/
def roundHalfEven (num den : Nat) : Nat :=
  let f := num / den
  let r := num % den
  if 2 * r < den then f
  else if den < 2 * r then f + 1
  else if f % 2 = 0 then f else f + 1

/-- The binary64 value of the real number `± (num / den) * 2^e` (`den > 0`): round to
nearest, ties to even, with 53 significant bits, least exponent `-1074`, overflow to
infinity when the rounded magnitude `m * 2^t` reaches `2^1024` (that is, has more than
`1024` binary digits). -/
def binary64Round (negative : Bool) (num den : Nat) (e : ℤ) : Double :=
  if num = 0 then Double.fin 0 0
  else
    let k : ℤ := (bitLength num : ℤ) - (bitLength den : ℤ)
    let ge : Bool :=
      if 0 ≤ k then decide (2 ^ k.toNat * den ≤ num) else decide (den ≤ num * 2 ^ (-k).toNat)
    let lg : ℤ := if ge then k else k - 1
    let t : ℤ := max (lg + e - 52) (-1074)
    let shift : ℤ := e - t
    let m : Nat :=
      if 0 ≤ shift then roundHalfEven (num * 2 ^ shift.toNat) den
      else roundHalfEven num (den * 2 ^ (-shift).toNat)
    if 1024 < (bitLength m : ℤ) + t then Double.inf negative
    else Double.fin (if negative then -(m : ℤ) else (m : ℤ)) t

/-- The double division `d / 1000` (the only division in `HandleCallback`). -/
def Double.div1000 : Double → Double
  | Double.nan => Double.nan
  | Double.inf negative => Double.inf negative
  | Double.fin mantissa exponent =>
    binary64Round (decide (mantissa < 0)) mantissa.natAbs 1000 exponent

/-- The integer part of a finite double (truncation toward zero); none for `NaN` and the
infinities. -/
def Double.trunc : Double → Option ℤ
  | Double.fin mantissa exponent =>
    if 0 ≤ exponent then some (mantissa * 2 ^ exponent.toNat)
    else some (mantissa.tdiv (2 ^ (-exponent).toNat))
  | _ => none

/-- The value in `[-2^63, 2^63)` congruent to `z` modulo `2^64`. -/
def wrap64 (z : ℤ) : ℤ :=
  (z + 2 ^ 63) % 2 ^ 64 - 2 ^ 63

/-! ## JavaScript values passed to `HandleCallback` -/

/-- The JavaScript values of the model: primitives, plain data objects given by their own
properties, and `node::Buffer` instances given by their bytes. -/
inductive JSValue where
  | undefined
  | null
  | boolean (b : Bool)
  | number (d : Double)
  | string (s : String)
  | object (props : List (String × JSValue))
  | buffer (bytes : List UInt8)

/-- What the host leaves open: the ECMAScript conversions `ToNumber` and `ToString` on the
values for which they run engine or user code (strings to numbers, numbers and objects to
strings, ...), and the `int64_t` that the conversion instruction yields for a double whose
truncation does not fit. -/
structure Platform where
  numberOf : JSValue → Double
  stringOf : JSValue → String
  outOfRange : Double → ℤ

/-- `v->IsObject()`: buffers are objects too. -/
def JSValue.IsObject : JSValue → Bool
  | JSValue.object _ => true
  | JSValue.buffer _ => true
  | _ => false

/-- `v->IsString()`. -/
def JSValue.IsString : JSValue → Bool
  | JSValue.string _ => true
  | _ => false

/-- `Nan::Has(obj, key)`: a `Maybe<bool>` that is `Just` whether or not the property exists
(it is `Nothing` only when the lookup throws, which plain data objects never do). -/
def Nan.Has (obj : JSValue) (key : String) : Option Bool :=
  match obj with
  | JSValue.object props => some (props.any (fun e => e.1 == key))
  | _ => some false

/-- `Nan::Get(obj, key).ToLocalChecked()`: the property, `undefined` when there is none. -/
def Nan.Get (obj : JSValue) (key : String) : JSValue :=
  match obj with
  | JSValue.object props =>
    match props.find? (fun e => e.1 == key) with
    | some e => e.2
    | none => JSValue.undefined
  | _ => JSValue.undefined

/-- `Nan::To<double>(v).FromJust()`: ECMAScript `ToNumber`. -/
def Nan.ToDouble (p : Platform) : JSValue → Double
  | JSValue.number d => d
  | JSValue.undefined => Double.nan
  | JSValue.null => Double.fin 0 0
  | JSValue.boolean true => Double.fin 1 0
  | JSValue.boolean false => Double.fin 0 0
  | v => p.numberOf v

/-- `Nan::Utf8String(v)`: ECMAScript `ToString`, as the sequence of characters written to
the buffer. -/
def Nan.Utf8String (p : Platform) : JSValue → String
  | JSValue.string s => s
  | JSValue.undefined => "undefined"
  | JSValue.null => "null"
  | JSValue.boolean true => "true"
  | JSValue.boolean false => "false"
  | v => p.stringOf v

/-- The string that a `const char*` denotes: the characters before the first NUL.  This is
what `std::string { ptr }` and `strlen(ptr)` see of a `Utf8String` buffer. -/
def cString (s : String) : String :=
  String.mk (s.data.takeWhile (fun c => c != Char.ofNat 0))

/-- `static_cast<mbgl::Seconds::rep>(d)` with `rep = int64_t`: truncation toward zero when
the truncated value fits, otherwise whatever `int64_t` the platform produces. -/
def Double.toInt64 (p : Platform) (d : Double) : ℤ :=
  match d.trunc with
  | some t => if -2 ^ 63 ≤ t ∧ t < 2 ^ 63 then t else wrap64 (p.outOfRange d)
  | none => wrap64 (p.outOfRange d)

/-! ## `mbgl::Response` -/

/-- Modelled from the spec: `mbgl::Timestamp { mbgl::Seconds(n) }` (declared in
`mbgl/util/chrono.hpp`): a seconds-resolution timestamp, as whole seconds past the epoch. -/
structure Timestamp where
  seconds : ℤ
  deriving DecidableEq, Repr

/-- Modelled from the spec: `mbgl::Response::Error::Reason` (declared in
`mbgl/storage/response.hpp`), the tag of a fetch error; `HandleErrorCallback` uses `Other`. -/
inductive Reason where
  | Other
  deriving DecidableEq, Repr

/-- Modelled from the spec: `mbgl::Response::Error(reason, message)` (declared in
`mbgl/storage/response.hpp`): a tagged reason with a human-readable message. -/
structure Error where
  reason : Reason
  message : String
  deriving DecidableEq, Repr

/-- Modelled from the spec: `mbgl::Response` (declared in `mbgl/storage/response.hpp`):
optional error, the `noContent` flag, optional payload bytes, optional `modified` and
`expires` timestamps, optional `etag`. -/
structure Response where
  error : Option Error := none
  noContent : Bool := false
  data : Option (List UInt8) := none
  modified : Option Timestamp := none
  expires : Option Timestamp := none
  etag : Option String := none
  deriving DecidableEq, Repr

/-! ## `NodeRequestWorker` and `NodeAsyncRequest` (node_request.hpp, node_request.cpp) -/

/-- A `mbgl::FileSource::Callback` value; its body belongs to the file source, so an
invocation is recorded rather than executed. -/
structure Callback where
  id : Nat
  deriving DecidableEq, Repr

/-- `NodeRequestWorker` (node_request.hpp:47-52) with the `errmsg_` of `Nan::AsyncWorker`.
`asyncRequest` tells whether the pointer is non-null. -/
structure NodeRequestWorker where
  fileSourceCallback : Option Callback
  asyncRequest : Bool
  response : Response
  errmsg : Option String
  deriving DecidableEq, Repr

/-- `NodeRequestWorker::NodeAsyncRequest` (node_request.hpp:36-41): `worker` tells whether
the pointer is non-null. -/
structure NodeAsyncRequest where
  worker : Bool
  deriving DecidableEq, Repr

/-- The worker, the `NodeAsyncRequest` made for it while that object is alive, and the
invocations of file-source callbacks so far, oldest first. -/
structure World where
  worker : NodeRequestWorker
  request : Option NodeAsyncRequest
  invoked : List (Callback × Response)
  deriving DecidableEq, Repr

/-- `NodeRequestWorker::NodeRequestWorker` (node_request.cpp:9-16): a worker holding the
callback, before any `NodeAsyncRequest` exists. -/
def World.fresh (fileSourceCallback_ : Callback) : World :=
  { worker :=
      { fileSourceCallback := some fileSourceCallback_
        asyncRequest := false
        response := {}
        errmsg := none }
    request := none
    invoked := [] }

/-- `Nan::AsyncWorker::SetErrorMessage(msg)`: stores a copy of the C string. -/
def NodeRequestWorker.SetErrorMessage (worker : NodeRequestWorker) (msg : String) :
    NodeRequestWorker :=
  { worker with errmsg := some (cString msg) }

/-- `NodeRequestWorker::HandleOKCallback` (node_request.cpp:119-129).  `none` stands for
undefined behaviour (calling through the null pointer that `release()` returns when the
slot is empty). -/
def HandleOKCallback (s : World) : Option World :=
  match s.worker.fileSourceCallback with
  | none => none
  | some cb =>
    let worker := { s.worker with fileSourceCallback := none }
    some { s with worker := worker, invoked := s.invoked ++ [(cb, worker.response)] }

/-- `NodeRequestWorker::HandleErrorCallback` (node_request.cpp:131-145).  `none` stands for
undefined behaviour (an empty callback slot, or `std::string` built from a null
`ErrorMessage()`). -/
def HandleErrorCallback (s : World) : Option World :=
  match s.worker.fileSourceCallback with
  | none => none
  | some cb =>
    match s.worker.errmsg with
    | none => none
    | some message =>
      let worker := { s.worker with fileSourceCallback := none }
      let worker := { worker with
        response := { worker.response with
          error := some { reason := Reason.Other, message := message } } }
      some { s with worker := worker, invoked := s.invoked ++ [(cb, worker.response)] }

/-- `NodeRequestWorker::WorkComplete` (node_request.cpp:50-55). -/
def WorkComplete (s : World) : Option World :=
  if s.worker.fileSourceCallback.isNone then some s
  else if s.worker.errmsg.isSome then HandleErrorCallback s
  else HandleOKCallback s

/-- `NodeRequestWorker::Destroy` (node_request.cpp:41-48).  `none` stands for undefined
behaviour (the write through `asyncRequest` after the request object was destroyed). -/
def Destroy (s : World) : Option World :=
  if s.worker.asyncRequest then
    match s.request with
    | none => none
    | some request => some { s with request := some { request with worker := false } }
  else some s

/-- `NodeAsyncRequest::NodeAsyncRequest(worker)` (node_request.cpp:168-174); the model has
room for one request object, so the constructor has no effect while one is alive. -/
def NodeAsyncRequest.construct (s : World) : World :=
  match s.request with
  | some _ => s
  | none =>
    { s with
      request := some { worker := true }
      worker := { s.worker with asyncRequest := true } }

/-- `NodeAsyncRequest::~NodeAsyncRequest` (node_request.cpp:176-183), after which the request
object is gone; no effect when there is no request object to destroy. -/
def NodeAsyncRequest.destroy (s : World) : World :=
  match s.request with
  | none => s
  | some request =>
    if request.worker then
      { s with
        worker := { s.worker with fileSourceCallback := none, asyncRequest := false }
        request := none }
    else { s with request := none }

/-- How a call of `HandleCallback` ends: it returns normally, or it returns after
`Nan::ThrowTypeError(message)`, or its behaviour is undefined. -/
inductive Outcome where
  | returned (s : World)
  | threw (message : String) (s : World)
  | undefined
  deriving DecidableEq, Repr

/-- The state after the call, when the call has one. -/
def Outcome.state : Outcome → Option World
  | Outcome.returned s => some s
  | Outcome.threw _ s => some s
  | Outcome.undefined => none

/-- Lines 80-86 and 88-94 of `HandleCallback` (the same code for `modified` and `expires`):
the new value of the response field `current` read from property `key` of `res`. -/
def HandleCallback.timestamp (p : Platform) (res : JSValue) (key : String)
    (current : Option Timestamp) : Option Timestamp :=
  if (Nan.Has res key).isSome then
    let value := Nan.ToDouble p (Nan.Get res key)
    if !value.isnan then
      some { seconds := Double.toInt64 p value.div1000 }
    else current
  else current

/-- `worker->WorkComplete()` at the end of `HandleCallback` (line 116). -/
def HandleCallback.complete (s : World) : Outcome :=
  match WorkComplete s with
  | none => Outcome.undefined
  | some s => Outcome.returned s

/-- `NodeRequestWorker::HandleCallback` (node_request.cpp:57-117), called with the argument
list `info` on the worker bound to the callback function.  `info[i]` beyond the length is
`undefined`.  The test `if (*etag)` is on the buffer pointer of the `Utf8String`, which is
never null, so the etag is stored whenever the conversion ran.  The match on `data` is
`node::Buffer::HasInstance(data)` together with `Buffer::Data` and `Buffer::Length`. -/
def HandleCallback (p : Platform) (info : List JSValue) (s : World) : Outcome :=
  let info0 := info.getD 0 JSValue.undefined
  let info1 := info.getD 1 JSValue.undefined
  if info0.IsObject then
    let err := info0
    let msg := "message"
    let worker :=
      if (Nan.Has err msg).isSome then
        s.worker.SetErrorMessage (Nan.Utf8String p (Nan.Get err msg))
      else s.worker
    HandleCallback.complete { s with worker := worker }
  else if info0.IsString then
    let worker := s.worker.SetErrorMessage (Nan.Utf8String p info0)
    HandleCallback.complete { s with worker := worker }
  else if info.length < 1 then
    let worker := { s.worker with response := { s.worker.response with noContent := true } }
    HandleCallback.complete { s with worker := worker }
  else if info.length < 2 ∨ info1.IsObject = false then
    Outcome.threw "Second argument must be a response object" s
  else
    let res := info1
    let response := s.worker.response
    let response :=
      { response with modified := HandleCallback.timestamp p res "modified" response.modified }
    let response :=
      { response with expires := HandleCallback.timestamp p res "expires" response.expires }
    let response :=
      if (Nan.Has res "etag").isSome then
        let etag := Nan.Utf8String p (Nan.Get res "etag")
        { response with etag := some (cString etag) }
      else response
    if (Nan.Has res "data").isSome then
      let data := Nan.Get res "data"
      match data with
      | JSValue.buffer bytes =>
        let response := { response with data := some bytes }
        HandleCallback.complete { s with worker := { s.worker with response := response } }
      | _ =>
        Outcome.threw "Response data must be a Buffer"
          { s with worker := { s.worker with response := response } }
    else
      HandleCallback.complete { s with worker := { s.worker with response := response } }

/-- The operations that act on one worker and its request object. -/
inductive Event where
  | HandleCallback (info : List JSValue)
  | WorkComplete
  | Destroy
  | construct
  | cancel

/-- One event; `none` stands for undefined behaviour.  A `TypeError` thrown by
`HandleCallback` goes to the JavaScript caller and leaves the state as it is then. -/
def step (p : Platform) (e : Event) (s : World) : Option World :=
  match e with
  | Event.HandleCallback info => (HandleCallback p info s).state
  | Event.WorkComplete => WorkComplete s
  | Event.Destroy => Destroy s
  | Event.construct => some (NodeAsyncRequest.construct s)
  | Event.cancel => some (NodeAsyncRequest.destroy s)

/-- A sequence of events from state `s`; the run ends where an event has undefined
behaviour, with the state reached until then. -/
def run (p : Platform) : World → List Event → World
  | s, [] => s
  | s, e :: es =>
    match step p e s with
    | none => s
    | some s => run p s es

/-- A sequence of events from state `s`, `none` as soon as one of them has undefined
behaviour. -/
def exec (p : Platform) : World → List Event → Option World
  | s, [] => some s
  | s, e :: es =>
    match step p e s with
    | none => none
    | some s => exec p s es

/-- Deliveries made so far plus the one that the callback slot can still give rise to. -/
def credit (s : World) : Nat :=
  s.invoked.length + (if s.worker.fileSourceCallback.isSome then 1 else 0)

/-- The invocations so far and the callback still stored are all of `cb`. -/
def owned (cb : Callback) (s : World) : Prop :=
  (∀ x ∈ s.invoked, x.1 = cb) ∧ ∀ c, s.worker.fileSourceCallback = some c → c = cb

/-- The order of calls that `Destroy` relies on (node_request.cpp:42-44: when the worker is
destroyed its callback "can't be fired anymore"): along the events from `s`, every `Destroy`
meets an empty callback slot. -/
def destroyAfterDelivery (p : Platform) : World → List Event → Bool
  | _, [] => true
  | s, e :: es =>
    (match e with
      | Event.Destroy => s.worker.fileSourceCallback.isNone
      | _ => true) &&
    (match step p e s with
      | none => true
      | some s => destroyAfterDelivery p s es)

/-- While the callback is stored, the live request object still points at its worker. -/
def linked (s : World) : Prop :=
  s.worker.fileSourceCallback ≠ none → ∀ r, s.request = some r → r.worker = true

/-- A platform for evaluating the embedding on concrete inputs: `ToNumber` and `ToString`
of the values left open are `NaN` and the empty string, and a double that does not fit is
converted to `-2^63` as by the x86-64 conversion instruction. -/
def Platform.x86_64 : Platform :=
  { numberOf := fun _ => Double.nan
    stringOf := fun _ => ""
    outOfRange := fun _ => -2 ^ 63 }

end node_mbgl

namespace node_mbgl

/-! ## Properties of `NodeRequestWorker` -/

theorem WorkComplete_of_empty (s : World) (h : s.worker.fileSourceCallback = none) :
    WorkComplete s = some s := by
  simp [WorkComplete, h]

theorem WorkComplete_of_pending (s : World) (cb : Callback)
    (h : s.worker.fileSourceCallback = some cb) :
    ∃ r : Response, WorkComplete s = some
      { s with
        worker := { s.worker with fileSourceCallback := none, response := r }
        invoked := s.invoked ++ [(cb, r)] } := by
  cases herr : s.worker.errmsg with
  | none => exact ⟨s.worker.response, by simp [WorkComplete, h, herr, HandleOKCallback]⟩
  | some msg =>
    exact ⟨{ s.worker.response with error := some { reason := Reason.Other, message := msg } },
      by simp [WorkComplete, h, herr, HandleErrorCallback]⟩

/-- `HandleCallback` changes the response and the error message of the worker and then
either throws or ends in `WorkComplete`; it leaves the callback slot to `WorkComplete`. -/
theorem HandleCallback_shape (p : Platform) (info : List JSValue) (s : World) :
    ∃ w : NodeRequestWorker,
      w.fileSourceCallback = s.worker.fileSourceCallback ∧
      w.asyncRequest = s.worker.asyncRequest ∧
      (HandleCallback p info s = HandleCallback.complete { s with worker := w } ∨
        ∃ msg, HandleCallback p info s = Outcome.threw msg { s with worker := w }) := by
  unfold HandleCallback
  simp only []
  split
  · refine ⟨_, ?_, ?_, Or.inl rfl⟩ <;> (split <;> rfl)
  · split
    · refine ⟨_, ?_, ?_, Or.inl rfl⟩ <;> rfl
    · split
      · refine ⟨_, ?_, ?_, Or.inl rfl⟩ <;> rfl
      · split
        · exact ⟨s.worker, rfl, rfl, Or.inr ⟨_, rfl⟩⟩
        · split
          · split
            · refine ⟨_, ?_, ?_, Or.inl rfl⟩ <;> rfl
            · refine ⟨_, ?_, ?_, Or.inr ⟨_, rfl⟩⟩ <;> rfl
          · refine ⟨_, ?_, ?_, Or.inl rfl⟩ <;> rfl

theorem WorkComplete_credit (s s' : World) (h : WorkComplete s = some s') :
    credit s' ≤ credit s ∧ ∀ cb, owned cb s → owned cb s' := by
  cases hcb : s.worker.fileSourceCallback with
  | none =>
    rw [WorkComplete_of_empty s hcb] at h
    cases h
    exact ⟨le_refl _, fun _ ho => ho⟩
  | some c =>
    obtain ⟨r, hr⟩ := WorkComplete_of_pending s c hcb
    rw [hr] at h
    cases h
    refine ⟨by simp [credit, hcb], fun cb ho => ⟨?_, ?_⟩⟩
    · intro x hx
      simp only [List.mem_append, List.mem_singleton] at hx
      rcases hx with hx | hx
      · exact ho.1 x hx
      · rw [hx]; exact ho.2 c hcb
    · intro c' hc'
      simp at hc'

theorem HandleCallback_credit (p : Platform) (info : List JSValue) (s s' : World)
    (h : (HandleCallback p info s).state = some s') :
    credit s' ≤ credit s ∧ ∀ cb, owned cb s → owned cb s' := by
  obtain ⟨w, hw1, hw2, hw | ⟨msg, hw⟩⟩ := HandleCallback_shape p info s
  · rw [hw] at h
    simp only [HandleCallback.complete] at h
    cases hwc : WorkComplete { s with worker := w } with
    | none => simp [hwc, Outcome.state] at h
    | some t =>
      simp only [hwc, Outcome.state, Option.some.injEq] at h
      subst h
      have := WorkComplete_credit _ _ hwc
      refine ⟨le_trans this.1 (by simp [credit, hw1]), fun cb ho => this.2 cb ⟨ho.1, ?_⟩⟩
      intro c hc
      exact ho.2 c (by simpa [hw1] using hc)
  · rw [hw] at h
    simp only [Outcome.state, Option.some.injEq] at h
    subst h
    refine ⟨by simp [credit, hw1], fun cb ho => ⟨ho.1, ?_⟩⟩
    intro c hc
    exact ho.2 c (by simpa [hw1] using hc)

theorem step_credit (p : Platform) (e : Event) (s s' : World) (h : step p e s = some s') :
    credit s' ≤ credit s ∧ ∀ cb, owned cb s → owned cb s' := by
  cases e with
  | HandleCallback info => exact HandleCallback_credit p info s s' h
  | WorkComplete => exact WorkComplete_credit s s' h
  | Destroy =>
    simp only [step, Destroy] at h
    split at h
    · split at h
      · cases h
      · cases h
        exact ⟨le_refl _, fun _ ho => ho⟩
    · cases h
      exact ⟨le_refl _, fun _ ho => ho⟩
  | construct =>
    simp only [step, NodeAsyncRequest.construct, Option.some.injEq] at h
    subst h
    split
    · exact ⟨le_refl _, fun _ ho => ho⟩
    · exact ⟨le_refl _, fun _ ho => ho⟩
  | cancel =>
    simp only [step, NodeAsyncRequest.destroy, Option.some.injEq] at h
    subst h
    split
    · exact ⟨le_refl _, fun _ ho => ho⟩
    · split
      · refine ⟨by simp [credit], fun cb ho => ⟨ho.1, ?_⟩⟩
        intro c hc
        simp at hc
      · exact ⟨le_refl _, fun _ ho => ho⟩

theorem run_credit (p : Platform) (events : List Event) (s : World) :
    credit (run p s events) ≤ credit s ∧ ∀ cb, owned cb s → owned cb (run p s events) := by
  induction events generalizing s with
  | nil => exact ⟨le_refl _, fun _ ho => ho⟩
  | cons e es ih =>
    simp only [run]
    cases hstep : step p e s with
    | none => exact ⟨le_refl _, fun _ ho => ho⟩
    | some t =>
      have h1 := step_credit p e s t hstep
      have h2 := ih t
      exact ⟨le_trans h2.1 h1.1, fun cb ho => h2.2 cb (h1.2 cb ho)⟩

/-- C1: from a freshly constructed worker holding callback `cb`, after any finite sequence
of `HandleCallback` (with any arguments), `WorkComplete`, `Destroy`, construction and
destruction of the `NodeAsyncRequest`, at most one callback invocation has happened, and
it is an invocation of `cb`. -/
theorem at_most_once_delivery (p : Platform) (cb : Callback) (events : List Event) :
    (run p (World.fresh cb) events).invoked.length ≤ 1 ∧
    ∀ x ∈ (run p (World.fresh cb) events).invoked, x.1 = cb := by
  have h := run_credit p events (World.fresh cb)
  constructor
  · have h1 : credit (World.fresh cb) = 1 := by simp [credit, World.fresh]
    have h2 : (run p (World.fresh cb) events).invoked.length ≤
        credit (run p (World.fresh cb) events) := by simp [credit]
    omega
  · refine (h.2 cb ⟨?_, ?_⟩).1
    · intro x hx
      simp [World.fresh] at hx
    · intro c hc
      simp only [World.fresh, Option.some.injEq] at hc
      exact hc.symm

theorem exec_of_empty (p : Platform) (later : List Event) (s : World)
    (hempty : s.worker.fileSourceCallback = none)
    (hlater : ∀ e ∈ later, e = Event.WorkComplete ∨ ∃ info, e = Event.HandleCallback info) :
    ∃ s', exec p s later = some s' ∧ s'.invoked = s.invoked := by
  induction later generalizing s with
  | nil => exact ⟨s, rfl, rfl⟩
  | cons e es ih =>
    have hes : ∀ e ∈ es, e = Event.WorkComplete ∨ ∃ info, e = Event.HandleCallback info :=
      fun e he => hlater e (List.mem_cons_of_mem _ he)
    rcases hlater e (List.mem_cons_self _ _) with he | ⟨info, he⟩
    · subst he
      simp only [exec, step, WorkComplete_of_empty s hempty]
      exact ih s hempty hes
    · subst he
      obtain ⟨w, hw1, _, hw | ⟨msg, hw⟩⟩ := HandleCallback_shape p info s
      · have hwe : ({ s with worker := w } : World).worker.fileSourceCallback = none := by
          simp [hw1, hempty]
        simp only [exec, step, hw, HandleCallback.complete, WorkComplete_of_empty _ hwe,
          Outcome.state]
        exact ih _ hwe hes
      · have hwe : ({ s with worker := w } : World).worker.fileSourceCallback = none := by
          simp [hw1, hempty]
        simp only [exec, step, hw, Outcome.state]
        exact ih _ hwe hes

theorem WorkComplete_frame (s s' : World) (h : WorkComplete s = some s') :
    s'.request = s.request ∧
    (s'.worker.fileSourceCallback = none ∨
      s'.worker.fileSourceCallback = s.worker.fileSourceCallback) := by
  cases hcb : s.worker.fileSourceCallback with
  | none =>
    rw [WorkComplete_of_empty s hcb] at h
    cases h
    exact ⟨rfl, Or.inl hcb⟩
  | some c =>
    obtain ⟨r, hr⟩ := WorkComplete_of_pending s c hcb
    rw [hr] at h
    cases h
    exact ⟨rfl, Or.inl rfl⟩

theorem HandleCallback_frame (p : Platform) (info : List JSValue) (s s' : World)
    (h : (HandleCallback p info s).state = some s') :
    s'.request = s.request ∧
    (s'.worker.fileSourceCallback = none ∨
      s'.worker.fileSourceCallback = s.worker.fileSourceCallback) := by
  obtain ⟨w, hw1, _, hw | ⟨msg, hw⟩⟩ := HandleCallback_shape p info s
  · rw [hw] at h
    simp only [HandleCallback.complete] at h
    cases hwc : WorkComplete { s with worker := w } with
    | none => simp [hwc, Outcome.state] at h
    | some t =>
      simp only [hwc, Outcome.state, Option.some.injEq] at h
      subst h
      have := WorkComplete_frame _ _ hwc
      exact ⟨this.1, this.2.imp id (fun h => h.trans hw1)⟩
  · rw [hw] at h
    simp only [Outcome.state, Option.some.injEq] at h
    subst h
    exact ⟨rfl, Or.inr hw1⟩

theorem step_linked (p : Platform) (e : Event) (s s' : World)
    (hdestroy : e = Event.Destroy → s.worker.fileSourceCallback = none)
    (h : step p e s = some s') (hl : linked s) : linked s' := by
  cases e with
  | HandleCallback info =>
    have hf := HandleCallback_frame p info s s' h
    intro hne r hr
    rcases hf.2 with h0 | h0
    · exact absurd h0 hne
    · exact hl (by rw [← h0]; exact hne) r (by rw [← hf.1]; exact hr)
  | WorkComplete =>
    have hf := WorkComplete_frame s s' h
    intro hne r hr
    rcases hf.2 with h0 | h0
    · exact absurd h0 hne
    · exact hl (by rw [← h0]; exact hne) r (by rw [← hf.1]; exact hr)
  | Destroy =>
    have hempty := hdestroy rfl
    simp only [step, Destroy] at h
    intro hne
    split at h
    · split at h
      · cases h
      · cases h
        exact absurd hempty hne
    · cases h
      exact absurd hempty hne
  | construct =>
    simp only [step, NodeAsyncRequest.construct, Option.some.injEq] at h
    subst h
    split
    · exact hl
    · intro _ r hr
      simp only [Option.some.injEq] at hr
      rw [← hr]
  | cancel =>
    simp only [step, NodeAsyncRequest.destroy, Option.some.injEq] at h
    subst h
    split
    · exact hl
    · split
      · intro _ r hr
        simp at hr
      · intro _ r hr
        simp at hr

theorem exec_linked (p : Platform) (events : List Event) (s s' : World)
    (hrun : exec p s events = some s') (hlife : destroyAfterDelivery p s events = true)
    (hl : linked s) : linked s' := by
  induction events generalizing s with
  | nil =>
    simp only [exec, Option.some.injEq] at hrun
    subst hrun
    exact hl
  | cons e es ih =>
    simp only [exec] at hrun
    simp only [destroyAfterDelivery, Bool.and_eq_true] at hlife
    cases hstep : step p e s with
    | none => simp [hstep] at hrun
    | some t =>
      simp only [hstep] at hrun hlife
      refine ih t hrun hlife.2 (step_linked p e s t ?_ hstep hl)
      intro he
      subst he
      simpa using hlife.1

/-- C2: (a) in every state reached from a freshly constructed worker by events among which
each `Destroy` meets an empty callback slot (the order `Destroy` relies on), when the
`NodeAsyncRequest` is destroyed while the callback has not yet been delivered, every later
sequence of `HandleCallback` (with any arguments) and `WorkComplete` runs to its end without
invoking a callback; (b) in every state, so also after the callback was delivered or after
the worker ran `Destroy`, destroying the `NodeAsyncRequest` invokes no callback and leaves
the worker's response unchanged. -/
theorem cancellation_safety (p : Platform) (cb : Callback) (before later : List Event)
    (s : World) (request : NodeAsyncRequest)
    (hrun : exec p (World.fresh cb) before = some s)
    (hlife : destroyAfterDelivery p (World.fresh cb) before = true)
    (hrequest : s.request = some request)
    (hpending : s.invoked = [])
    (hlater : ∀ e ∈ later, e = Event.WorkComplete ∨ ∃ info, e = Event.HandleCallback info) :
    (∃ s', exec p (NodeAsyncRequest.destroy s) later = some s' ∧ s'.invoked = []) ∧
    ∀ t : World, (NodeAsyncRequest.destroy t).invoked = t.invoked ∧
      (NodeAsyncRequest.destroy t).worker.response = t.worker.response := by
  have hl : linked s := exec_linked p before _ s hrun hlife (by
    intro _ r hr
    simp [World.fresh] at hr)
  constructor
  · have hempty : (NodeAsyncRequest.destroy s).worker.fileSourceCallback = none := by
      cases hcb : s.worker.fileSourceCallback with
      | none =>
        simp only [NodeAsyncRequest.destroy, hrequest]
        split <;> simp [hcb]
      | some c =>
        have := hl (by simp [hcb]) request hrequest
        simp [NodeAsyncRequest.destroy, hrequest, this]
    have hinv : (NodeAsyncRequest.destroy s).invoked = s.invoked := by
      simp only [NodeAsyncRequest.destroy, hrequest]
      split <;> rfl
    obtain ⟨s', h1, h2⟩ := exec_of_empty p later _ hempty hlater
    exact ⟨s', h1, h2.trans (hinv.trans hpending)⟩
  · intro t
    simp only [NodeAsyncRequest.destroy]
    split
    · exact ⟨rfl, rfl⟩
    · split <;> exact ⟨rfl, rfl⟩

/-- Instance of C2: a fresh worker with callback `0` whose request is constructed; a first
`HandleCallback` throws on a non-buffer `data`, leaving the callback pending; the request is
destroyed; then `WorkComplete` and a well-formed `HandleCallback` invoke nothing. -/
theorem cancellation_safety_witness :
    (∃ s', exec Platform.x86_64
        (NodeAsyncRequest.destroy
          { worker :=
              { fileSourceCallback := some ⟨0⟩
                asyncRequest := true
                response := { etag := some "undefined" }
                errmsg := none }
            request := some ⟨true⟩
            invoked := [] })
        [Event.WorkComplete,
         Event.HandleCallback [JSValue.null, JSValue.object [("data", JSValue.buffer [1])]]] =
          some s' ∧
      s'.invoked = []) ∧
    ∀ t : World, (NodeAsyncRequest.destroy t).invoked = t.invoked ∧
      (NodeAsyncRequest.destroy t).worker.response = t.worker.response :=
  cancellation_safety Platform.x86_64 ⟨0⟩
    [Event.construct,
     Event.HandleCallback [JSValue.null, JSValue.object [("data", JSValue.string "x")]]]
    [Event.WorkComplete,
     Event.HandleCallback [JSValue.null, JSValue.object [("data", JSValue.buffer [1])]]]
    { worker :=
        { fileSourceCallback := some ⟨0⟩
          asyncRequest := true
          response := { etag := some "undefined" }
          errmsg := none }
      request := some ⟨true⟩
      invoked := [] }
    ⟨true⟩ (by decide) (by decide) rfl rfl (by simp)

theorem cString_eq_self (s : String) (h : Char.ofNat 0 ∉ s.data) : cString s = s := by
  have : s.data.takeWhile (fun c => c != Char.ofNat 0) = s.data := by
    rw [List.takeWhile_eq_self_iff]
    intro c hc
    simp only [bne_iff_ne, ne_eq]
    intro hc0
    exact h (hc0 ▸ hc)
  simp [cString, this]

/-- C3 (refuted as stated): (1) on a worker whose callback is still pending after an earlier
call threw `Response data must be a Buffer` (having stored `modified = 5000`), the transport
result `expires = NaN, modified = NaN, etag = "abc", data = Buffer [1, 2]` is delivered with
`modified` present (5 seconds); (2) on a fresh worker the non-empty etag `a`, NUL, `b` is
delivered as `a`. -/
theorem end_to_end_not_for_every_pending_worker :
    (HandleCallback Platform.x86_64
        [JSValue.null, JSValue.object [("modified", JSValue.number (Double.fin 5000 0)),
          ("data", JSValue.string "x")]]
        (World.fresh ⟨0⟩)).state.map (fun s => (s.worker.fileSourceCallback, s.invoked)) =
      some (some ⟨0⟩, []) ∧
    ((HandleCallback Platform.x86_64
        [JSValue.null, JSValue.object [("modified", JSValue.number (Double.fin 5000 0)),
          ("data", JSValue.string "x")]]
        (World.fresh ⟨0⟩)).state.bind (fun s => (HandleCallback Platform.x86_64
          [JSValue.null, JSValue.object [("expires", JSValue.number Double.nan),
            ("modified", JSValue.number Double.nan), ("etag", JSValue.string "abc"),
            ("data", JSValue.buffer [1, 2])]] s).state)).map (fun s => s.invoked) =
      some [(⟨0⟩, { modified := some ⟨5⟩, etag := some "abc", data := some [1, 2] })] ∧
    (HandleCallback Platform.x86_64
        [JSValue.null, JSValue.object [("expires", JSValue.number Double.nan),
          ("modified", JSValue.number Double.nan),
          ("etag", JSValue.string (String.mk ['a', Char.ofNat 0, 'b'])),
          ("data", JSValue.buffer [1, 2])]]
        (World.fresh ⟨0⟩)).state.map (fun s => s.invoked) =
      some [(⟨0⟩, { etag := some "a", data := some [1, 2] })] := by
  decide

/-- C3 (amended): for every byte string `b` and every non-empty etag `e` without a NUL
character, when the transport calls back with a first argument that is neither an error
object nor a string and the response object `expires = NaN, modified = NaN, etag = e,
data = Buffer(b)`, on a worker whose callback `cb` is pending and which holds no `modified`,
`expires`, error, `noContent` flag or error message from an earlier call, the call returns
having invoked `cb` exactly once, with the Response `etag = e`, payload `b`, no `modified`,
no `expires`, no error and `noContent = false`; the callback slot is empty afterwards. -/
theorem end_to_end_result (p : Platform) (s : World) (cb : Callback) (info0 : JSValue)
    (b : List UInt8) (e : String)
    (hobject : info0.IsObject = false) (hstring : info0.IsString = false)
    (hpending : s.worker.fileSourceCallback = some cb)
    (hmodified : s.worker.response.modified = none)
    (hexpires : s.worker.response.expires = none)
    (herror : s.worker.response.error = none)
    (hnoContent : s.worker.response.noContent = false)
    (herrmsg : s.worker.errmsg = none)
    (hnonempty : e ≠ "") (hnul : Char.ofNat 0 ∉ e.data) :
    HandleCallback p
        [info0, JSValue.object [("expires", JSValue.number Double.nan),
          ("modified", JSValue.number Double.nan), ("etag", JSValue.string e),
          ("data", JSValue.buffer b)]] s =
      Outcome.returned
        { s with
          worker := { s.worker with
            fileSourceCallback := none
            response :=
              { error := none, noContent := false, data := some b, modified := none,
                expires := none, etag := some e } }
          invoked := s.invoked ++
            [(cb, { error := none, noContent := false, data := some b, modified := none,
                    expires := none, etag := some e })] } := by
  have hres : ∀ props, (JSValue.object props).IsObject = true := fun _ => rfl
  simp [HandleCallback, hobject, hstring, hres, Nan.Has, Nan.Get,
    HandleCallback.timestamp, Nan.ToDouble, Double.isnan, Nan.Utf8String,
    cString_eq_self e hnul, HandleCallback.complete, WorkComplete, hpending, herrmsg,
    HandleOKCallback, hmodified, hexpires, herror, hnoContent]

/-- Instance of the amended C3: etag `abc`, payload `[1, 2]`, first argument `null`, on a
fresh worker with callback `0`. -/
theorem end_to_end_result_witness :
    HandleCallback Platform.x86_64
        [JSValue.null, JSValue.object [("expires", JSValue.number Double.nan),
          ("modified", JSValue.number Double.nan), ("etag", JSValue.string "abc"),
          ("data", JSValue.buffer [1, 2])]] (World.fresh ⟨0⟩) =
      Outcome.returned
        { (World.fresh ⟨0⟩) with
          worker := { (World.fresh ⟨0⟩).worker with
            fileSourceCallback := none
            response :=
              { error := none, noContent := false, data := some [1, 2], modified := none,
                expires := none, etag := some "abc" } }
          invoked := (World.fresh ⟨0⟩).invoked ++
            [(⟨0⟩, { error := none, noContent := false, data := some [1, 2], modified := none,
                     expires := none, etag := some "abc" })] } :=
  end_to_end_result Platform.x86_64 (World.fresh ⟨0⟩) ⟨0⟩ JSValue.null [1, 2] "abc"
    rfl rfl rfl rfl rfl rfl rfl rfl (by decide) (by decide)

theorem Nan.Has_isSome (obj : JSValue) (key : String) : (Nan.Has obj key).isSome = true := by
  cases obj <;> rfl

theorem WorkComplete_timestamps (s s' : World) (h : WorkComplete s = some s') :
    s'.worker.response.modified = s.worker.response.modified ∧
    s'.worker.response.expires = s.worker.response.expires := by
  simp only [WorkComplete, HandleErrorCallback, HandleOKCallback] at h
  split at h
  · cases h; exact ⟨rfl, rfl⟩
  · split at h
    · split at h
      · cases h
      · split at h
        · cases h
        · cases h; exact ⟨rfl, rfl⟩
    · split at h
      · cases h
      · cases h; exact ⟨rfl, rfl⟩

theorem WorkComplete_defined (s : World) : ∃ s', WorkComplete s = some s' := by
  cases hcb : s.worker.fileSourceCallback with
  | none => exact ⟨s, WorkComplete_of_empty s hcb⟩
  | some c =>
    obtain ⟨r, hr⟩ := WorkComplete_of_pending s c hcb
    exact ⟨_, hr⟩

theorem HandleCallback.timestamp_of_fresh (p : Platform) (res : JSValue) (key : String)
    (m : Double) (hm : Nan.ToDouble p (Nan.Get res key) = m)
    (hrange : m.isnan = true ∨ ∃ t, m.div1000.trunc = some t ∧ -2 ^ 63 ≤ t ∧ t < 2 ^ 63) :
    HandleCallback.timestamp p res key none =
      if m.isnan then none else m.div1000.trunc.map Timestamp.mk := by
  simp only [HandleCallback.timestamp, Nan.Has_isSome, hm, if_true]
  rcases hrange with h | ⟨t, ht, hlo, hhi⟩
  · simp [h]
  · cases hn : m.isnan with
    | true => simp
    | false =>
      have hcast : Double.toInt64 p m.div1000 = t := by
        simp only [Double.toInt64, ht]
        exact if_pos ⟨hlo, hhi⟩
      simp [hcast, ht]

/-- C4 (refuted as stated): (1) for `modified = 1e22` the quotient `m / 1000` truncates to
`10^19`, which `int64_t` cannot hold: the response's `modified` is `-2^63` seconds on x86-64;
(2) on a worker that stored `modified = 5000` in an earlier call that threw, `modified = NaN`
leaves the response's `modified` present (5 seconds). -/
theorem timestamp_not_for_every_value :
    (Double.fin (10 ^ 22) 0).isnan = false ∧
    (Double.fin (10 ^ 22) 0).div1000.trunc = some (10 ^ 19) ∧
    (HandleCallback Platform.x86_64
        [JSValue.null, JSValue.object [("modified", JSValue.number (Double.fin (10 ^ 22) 0)),
          ("data", JSValue.buffer [])]]
        (World.fresh ⟨0⟩)).state.map (fun s => s.worker.response.modified) =
      some (some ⟨-2 ^ 63⟩) ∧
    ((HandleCallback Platform.x86_64
        [JSValue.null, JSValue.object [("modified", JSValue.number (Double.fin 5000 0)),
          ("data", JSValue.string "x")]]
        (World.fresh ⟨0⟩)).state.bind (fun s => (HandleCallback Platform.x86_64
          [JSValue.null, JSValue.object [("modified", JSValue.number Double.nan),
            ("data", JSValue.buffer [])]] s).state)).map
        (fun s => s.worker.response.modified) =
      some (some ⟨5⟩) := by
  decide

/-- C4 (amended): in the response branch of `HandleCallback` (first argument neither an
object nor a string, second argument an object), on a worker whose response has no
`modified` and no `expires` yet, when the `modified` field converts to the double `m` and
the `expires` field to the double `x`, each of them `NaN` or with a quotient by 1000 (in
double arithmetic) whose integer part fits `int64_t`: after the call, whether it returned
or threw, `modified` is absent when `m` is `NaN` and otherwise the timestamp of the integer
part of `m / 1000` seconds, and `expires` follows the same rule from `x` alone. -/
theorem timestamp_parsing (p : Platform) (s : World) (info0 res : JSValue)
    (rest : List JSValue) (m x : Double)
    (hobject : info0.IsObject = false) (hstring : info0.IsString = false)
    (hres : res.IsObject = true)
    (hm : Nan.ToDouble p (Nan.Get res "modified") = m)
    (hx : Nan.ToDouble p (Nan.Get res "expires") = x)
    (hmodified : s.worker.response.modified = none)
    (hexpires : s.worker.response.expires = none)
    (hmrange : m.isnan = true ∨ ∃ t, m.div1000.trunc = some t ∧ -2 ^ 63 ≤ t ∧ t < 2 ^ 63)
    (hxrange : x.isnan = true ∨ ∃ t, x.div1000.trunc = some t ∧ -2 ^ 63 ≤ t ∧ t < 2 ^ 63) :
    ∃ s', (HandleCallback p (info0 :: res :: rest) s).state = some s' ∧
      s'.worker.response.modified =
        (if m.isnan then none else m.div1000.trunc.map Timestamp.mk) ∧
      s'.worker.response.expires =
        (if x.isnan then none else x.div1000.trunc.map Timestamp.mk) := by
  have hM := HandleCallback.timestamp_of_fresh p res "modified" m hm hmrange
  have hX := HandleCallback.timestamp_of_fresh p res "expires" x hx hxrange
  have hcomplete : ∀ t : World, ∃ s', (HandleCallback.complete t).state = some s' ∧
      s'.worker.response.modified = t.worker.response.modified ∧
      s'.worker.response.expires = t.worker.response.expires := by
    intro t
    obtain ⟨s', hs'⟩ := WorkComplete_defined t
    exact ⟨s', by simp [HandleCallback.complete, hs', Outcome.state],
      WorkComplete_timestamps t s' hs'⟩
  unfold HandleCallback
  simp only [List.getD_cons_zero, List.getD_cons_succ, hobject, hstring, hres,
    List.length_cons, Nan.Has_isSome, if_true, hmodified, hexpires, hM, hX]
  simp only [Bool.false_eq_true, if_false, Nat.lt_one_iff, Nat.add_one_ne_zero,
    Bool.true_eq_false, or_false]
  have hlen : ¬ (rest.length + 1 + 1 < 2) := by omega
  simp only [hlen, if_false]
  split
  · obtain ⟨s', h1, h2, h3⟩ := hcomplete _
    exact ⟨s', h1, h2, h3⟩
  · exact ⟨_, rfl, rfl, rfl⟩

/-- Instance of the amended C4: `modified = 1000.0` gives exactly 1 second past the epoch,
`expires = NaN` stays absent (fresh worker, first argument `null`). -/
theorem timestamp_parsing_witness :
    ∃ s', (HandleCallback Platform.x86_64
        [JSValue.null, JSValue.object [("modified", JSValue.number (Double.fin 1000 0)),
          ("expires", JSValue.number Double.nan)]] (World.fresh ⟨0⟩)).state = some s' ∧
      s'.worker.response.modified = some ⟨1⟩ ∧
      s'.worker.response.expires = none := by
  obtain ⟨s', h1, h2, h3⟩ := timestamp_parsing Platform.x86_64 (World.fresh ⟨0⟩) JSValue.null
    (JSValue.object [("modified", JSValue.number (Double.fin 1000 0)),
      ("expires", JSValue.number Double.nan)]) [] (Double.fin 1000 0) Double.nan
    rfl rfl rfl rfl rfl rfl rfl (Or.inr ⟨1, by decide, by decide, by decide⟩) (Or.inl rfl)
  exact ⟨s', h1, h2.trans (by decide), h3.trans (by decide)⟩

end node_mbgl

namespace mbgl

open Filter Topology

/-! ## Properties of the raster paint remapping -/

theorem Painter.contrastFactor_tendsto_atTop :
    Tendsto (fun c : ℝ => Painter.contrastFactor c) (𝓝[<] 1) atTop := by
  have h1 : Tendsto (fun c : ℝ => 1 - c) (𝓝[<] 1) (𝓝[>] 0) := by
    apply tendsto_nhdsWithin_of_tendsto_nhds_of_eventually_within
    · have : Tendsto (fun c : ℝ => 1 - c) (𝓝 1) (𝓝 (1 - 1)) :=
        (continuous_const.sub continuous_id).tendsto 1
      simpa using this.mono_left nhdsWithin_le_nhds
    · filter_upwards [self_mem_nhdsWithin] with c hc
      simpa using hc
  have h2 : Tendsto (fun c : ℝ => (1 - c)⁻¹) (𝓝[<] 1) atTop :=
    tendsto_inv_zero_atTop.comp h1
  refine h2.congr' ?_
  have hmem : Set.Ioo (0 : ℝ) 1 ∈ 𝓝[<] (1 : ℝ) := Ioo_mem_nhdsWithin_Iio (by norm_num)
  filter_upwards [hmem] with c hc
  simp [Painter.contrastFactor, hc.1]

/-- C7: in exact real arithmetic `saturationFactor s` is `1 - 1/(1.001 - s)` for `s > 0` and
`-s` otherwise, `contrastFactor c` is `1/(1 - c)` for `c > 0` and `1 + c` otherwise; hence
`saturationFactor 0 = 0`, `saturationFactor (-1) = 1`, `contrastFactor 0 = 1`, and
`contrastFactor c` tends to `+∞` as `c` tends to `1` from below. -/
theorem Painter.saturation_contrast_formulas :
    (∀ s : ℝ, (0 < s → Painter.saturationFactor s = 1 - 1 / (1.001 - s)) ∧
              (s ≤ 0 → Painter.saturationFactor s = -s)) ∧
    (∀ c : ℝ, (0 < c → Painter.contrastFactor c = 1 / (1 - c)) ∧
              (c ≤ 0 → Painter.contrastFactor c = 1 + c)) ∧
    Painter.saturationFactor (0 : ℝ) = 0 ∧
    Painter.saturationFactor (-1 : ℝ) = 1 ∧
    Painter.contrastFactor (0 : ℝ) = 1 ∧
    Tendsto (fun c : ℝ => Painter.contrastFactor c) (𝓝[<] 1) atTop := by
  refine ⟨fun s => ⟨fun h => ?_, fun h => ?_⟩, fun c => ⟨fun h => ?_, fun h => ?_⟩,
    ?_, ?_, ?_, Painter.contrastFactor_tendsto_atTop⟩
  · simp [Painter.saturationFactor, h]
  · simp [Painter.saturationFactor, not_lt.mpr h]
  · simp [Painter.contrastFactor, h]
  · simp [Painter.contrastFactor, not_lt.mpr h]
  · simp [Painter.saturationFactor]
  · simp [Painter.saturationFactor]
  · simp [Painter.contrastFactor]

/-- C8: with exact `sin`, `cos`, `sqrt 3` and degrees converted to radians by `π / 180`,
`spinWeights θ` is `[(2 cos t + 1)/3, (-√3 sin t - cos t + 1)/3, (√3 sin t - cos t + 1)/3]`
for `t = θ·π/180`, and `spinWeights 0` is exactly `[1, 0, 0]`. -/
theorem Painter.spinWeights_zero :
    (∀ θ : ℝ, Painter.spinWeights Real.sin Real.cos (Real.sqrt 3) (Real.pi / 180) θ =
      [(2 * Real.cos (θ * (Real.pi / 180)) + 1) / 3,
       (-Real.sqrt 3 * Real.sin (θ * (Real.pi / 180)) - Real.cos (θ * (Real.pi / 180)) + 1) / 3,
       (Real.sqrt 3 * Real.sin (θ * (Real.pi / 180)) - Real.cos (θ * (Real.pi / 180)) + 1) / 3]) ∧
    Painter.spinWeights Real.sin Real.cos (Real.sqrt 3) (Real.pi / 180) 0 = [1, 0, 0] := by
  refine ⟨fun θ => rfl, ?_⟩
  simp only [Painter.spinWeights, zero_mul, Real.sin_zero, Real.cos_zero]
  norm_num

/-- C10 (refuted as stated): `0 ≤ 1/2000` lie in `[-1, 1]`, yet `saturationFactor 0 = 0` is
strictly below `saturationFactor (1/2000)`: the remap jumps up just right of `0`. -/
theorem Painter.saturationFactor_not_order_reversing_at_zero :
    (-1 : ℝ) ≤ 0 ∧ (0 : ℝ) ≤ 1 / 2000 ∧ (1 / 2000 : ℝ) ≤ 1 ∧
    ¬ (Painter.saturationFactor (0 : ℝ) ≥ Painter.saturationFactor (1 / 2000 : ℝ)) := by
  refine ⟨by norm_num, by norm_num, by norm_num, ?_⟩
  simp only [Painter.saturationFactor]
  norm_num

/-- C10 (amended): for `s1 ≤ s2` in `[-1, 1]` that do not straddle zero inside the window
`-1/1001 < s1 ≤ 0 < s2 < 1/1000` (that is: `s2 ≤ 0`, or `0 < s1`, or `s1 ≤ -1/1001`, or
`1/1000 ≤ s2`), `saturationFactor s1 ≥ saturationFactor s2`. -/
theorem Painter.saturationFactor_order_reversing_off_window (s1 s2 : ℝ)
    (hlo : -1 ≤ s1) (h12 : s1 ≤ s2) (hhi : s2 ≤ 1)
    (hside : s2 ≤ 0 ∨ 0 < s1 ∨ s1 ≤ -1 / 1001 ∨ 1 / 1000 ≤ s2) :
    Painter.saturationFactor s1 ≥ Painter.saturationFactor s2 := by
  have pos_branch : ∀ a b : ℝ, a ≤ b → b ≤ 1 →
      (1 : ℝ) - 1 / (1.001 - b) ≤ 1 - 1 / (1.001 - a) := by
    intro a b hab hb
    have hb' : (0 : ℝ) < 1.001 - b := by norm_num; linarith
    have : 1 / (1.001 - a) ≤ 1 / (1.001 - b) :=
      one_div_le_one_div_of_le hb' (by linarith)
    linarith
  have e0 : (1 : ℝ) - 1 / (1.001 - 0) = 1 / 1001 := by norm_num
  have e1 : (1 : ℝ) - 1 / (1.001 - 1 / 1000) = 0 := by norm_num
  by_cases h2 : 0 < s2
  · by_cases h1 : 0 < s1
    · simp only [Painter.saturationFactor, gt_iff_lt, h1, h2, if_true, ge_iff_le]
      exact pos_branch s1 s2 h12 hhi
    · simp only [Painter.saturationFactor, gt_iff_lt, h1, h2, if_true, if_false, ge_iff_le]
      have hj := pos_branch 0 s2 h2.le hhi
      rcases hside with h | h | h | h
      · exact absurd h2 (not_lt.mpr h)
      · exact absurd h h1
      · linarith
      · have := pos_branch (1 / 1000) s2 h hhi
        linarith [not_lt.mp h1]
  · have h1 : ¬ (0 < s1) := not_lt.mpr (le_trans h12 (not_lt.mp h2))
    simp only [Painter.saturationFactor, gt_iff_lt, h1, h2, if_false, ge_iff_le]
    linarith

/-- Instance of the amended C10 at `s1 = -1/2`, `s2 = 1/2`. -/
theorem Painter.saturationFactor_order_reversing_off_window_witness :
    (-1 : ℝ) ≤ -1 / 2 ∧ (-1 / 2 : ℝ) ≤ 1 / 2 ∧ (1 / 2 : ℝ) ≤ 1 ∧
    Painter.saturationFactor (-1 / 2 : ℝ) ≥ Painter.saturationFactor (1 / 2 : ℝ) :=
  ⟨by norm_num, by norm_num, by norm_num,
    Painter.saturationFactor_order_reversing_off_window (-1 / 2) (1 / 2)
      (by norm_num) (by norm_num) (by norm_num) (Or.inr (Or.inr (Or.inl (by norm_num))))⟩

/-! ## Properties of `ShapeAnnotationImpl::updateTileData` -/

/-- C5: when `getTile(z, x, y)` returns a tile with zero features, `updateTileData` returns
with the tile data exactly as it was passed in: no layer is created under the annotation's
`layerID`, so a `d` without layers still has no layers. -/
theorem ShapeAnnotationImpl.updateTileData_empty_tile (NDEBUG : Bool) (EXTENT : Nat)
    (fixupPolygons : GeometryCollection → GeometryCollection)
    (getTile : GeoJSONVT → Nat → Nat → Nat → Tile)
    (self : ShapeAnnotationImpl) (tileID : CanonicalTileID) (d : AnnotationTileData)
    (hempty : (getTile (self.ensureTiler EXTENT) tileID.z tileID.x tileID.y).features = []) :
    ShapeAnnotationImpl.updateTileData NDEBUG EXTENT fixupPolygons getTile self tileID d =
      Except.ok ({ self with shapeTiler := some (self.ensureTiler EXTENT) }, d) := by
  simp [ShapeAnnotationImpl.updateTileData, hempty]

/-- Instance of C5: annotation 7, tile 0/0/0, a tiler that answers with an empty tile, and a
tile data without layers. -/
theorem ShapeAnnotationImpl.updateTileData_empty_tile_witness :
    ShapeAnnotationImpl.updateTileData false 8192 (fun g => g) (fun _ _ _ _ => ⟨[]⟩)
        (ShapeAnnotationImpl.new 7 16) ⟨0, 0, 0⟩ ⟨[]⟩ =
      Except.ok ({ ShapeAnnotationImpl.new 7 16 with
        shapeTiler := some ((ShapeAnnotationImpl.new 7 16).ensureTiler 8192) }, ⟨[]⟩) :=
  ShapeAnnotationImpl.updateTileData_empty_tile false 8192 (fun g => g) (fun _ _ _ _ => ⟨[]⟩)
    (ShapeAnnotationImpl.new 7 16) ⟨0, 0, 0⟩ ⟨[]⟩ rfl

/-- The loop body on a line string: `typeid` of the variant never equals
`typeid(line_string<int16_t>)`, so `featureType` stays `Unknown`; the body fails the
assertion when asserts are compiled in and otherwise appends an `Unknown` feature without
rings.  (`updateTileData` does not reach the body on the tiler it builds, whose tiles have
no features.) -/
theorem ShapeAnnotationImpl.updateTileData.body_line_string (NDEBUG : Bool)
    (fixupPolygons : GeometryCollection → GeometryCollection)
    (layer : AnnotationTileLayer) (ps : List (Point Int)) :
    ShapeAnnotationImpl.updateTileData.body NDEBUG fixupPolygons layer
        ⟨Geometry.line_string ps⟩ =
      if NDEBUG = false then Except.error Abort.assertion_failed
      else Except.ok { layer with
        features := layer.features ++ [⟨FeatureType.Unknown, []⟩] } := by
  cases NDEBUG <;> rfl

/-- C9 (refuted as stated): after the first call for annotation 7 with maximum zoom 16 and
`EXTENT = 8192`, the tiler's tolerance option is `4`, and `4` is not `4 / (2^16 * 8192)`. -/
theorem ShapeAnnotationImpl.tolerance_option_not_scaled :
    ((ShapeAnnotationImpl.updateTileData false 8192 (fun g => g) (fun _ _ _ _ => ⟨[]⟩)
        (ShapeAnnotationImpl.new 7 16) ⟨0, 0, 0⟩ ⟨[]⟩).toOption.bind
          (fun r => r.1.shapeTiler)).map (fun tiler => tiler.options.tolerance) = some 4 ∧
    (4 : ℚ) ≠ 4 / ((2 : ℚ) ^ 16 * 8192) := by
  refine ⟨rfl, ?_⟩
  norm_num

/-- C9 (amended): on the first call of `updateTileData` for an annotation with maximum zoom
`Z` (no tiler exists yet), the tiler is constructed with its tolerance option equal to the
base tolerance `4` itself, together with `maxZoom = Z`, `extent = EXTENT` and
`buffer = 255`; this is the tiler that `getTile` is asked and that the annotation keeps when
the call returns. -/
theorem ShapeAnnotationImpl.first_call_tiler_options (NDEBUG : Bool) (EXTENT : Nat)
    (fixupPolygons : GeometryCollection → GeometryCollection)
    (getTile : GeoJSONVT → Nat → Nat → Nat → Tile)
    (self : ShapeAnnotationImpl) (tileID : CanonicalTileID) (d : AnnotationTileData)
    (hfirst : self.shapeTiler = none) :
    (self.ensureTiler EXTENT).options =
      { maxZoom := self.maxZoom, buffer := 255, extent := EXTENT, tolerance := 4 } ∧
    ∀ self' d',
      ShapeAnnotationImpl.updateTileData NDEBUG EXTENT fixupPolygons getTile self tileID d =
        Except.ok (self', d') →
      self'.shapeTiler = some (self.ensureTiler EXTENT) := by
  refine ⟨by simp [ShapeAnnotationImpl.ensureTiler, hfirst], ?_⟩
  intro self' d' h
  simp only [ShapeAnnotationImpl.updateTileData] at h
  split at h
  · cases h; rfl
  · split at h
    · cases h
    · cases h; rfl

/-- Instance of the amended C9: annotation 7 with maximum zoom 16, `EXTENT = 8192`. -/
theorem ShapeAnnotationImpl.first_call_tiler_options_witness :
    ((ShapeAnnotationImpl.new 7 16).ensureTiler 8192).options =
      { maxZoom := 16, buffer := 255, extent := 8192, tolerance := 4 } ∧
    ∀ self' d',
      ShapeAnnotationImpl.updateTileData false 8192 (fun g => g) (fun _ _ _ _ => ⟨[]⟩)
          (ShapeAnnotationImpl.new 7 16) ⟨0, 0, 0⟩ ⟨[]⟩ = Except.ok (self', d') →
      self'.shapeTiler = some ((ShapeAnnotationImpl.new 7 16).ensureTiler 8192) :=
  ShapeAnnotationImpl.first_call_tiler_options false 8192 (fun g => g) (fun _ _ _ _ => ⟨[]⟩)
    (ShapeAnnotationImpl.new 7 16) ⟨0, 0, 0⟩ ⟨[]⟩ rfl

end mbgl
